import Mathlib

/-!
ServiceWorker: an embedding of `sw.js`.

The service worker script `sw.js` is embedded as pure Lean functions.

* JavaScript strings are `String`; the two substring tests the script uses
  (`String.prototype.indexOf` and `String.prototype.includes`) are written
  out over the character lists.
* A promise is a function from the state of the world (the cache storage and
  the log of network fetches) to its settlement and the new state.  `.then`
  and `.catch` are `Promise.andThen` and `Promise.catchWith`; a callback that
  throws is a callback that returns a rejected promise.
* The browser (the network, and whether a storage operation succeeds) is the
  parameter `Platform`.
* An event listener either throws before it hands anything to the event
  (`Dispatch.raised`) or hands a promise to `respondWith` / `waitUntil`
  (`Dispatch.handed`).
-/

namespace ServiceWorker

/-! ## Values -/

/-- The errors a promise of the script can reject with, or a listener throw. -/
inductive JsError where
  | typeError
  | referenceError
  | networkError
  | storageError
  deriving DecidableEq, Repr

/-- A `Response`: status, header list, body (`none` is the null body). -/
structure Response where
  status : Nat
  headers : List (String × String)
  body : Option String
  deriving DecidableEq, Repr

/-- A `Request` as the script reads it: `url`, `method`, `mode` and
`headers.get('Accept')` (header names are case-insensitive, so
`headers.get('accept')` reads the same field); `accept = none` is the `null`
that `headers.get` returns for a request without the header. -/
structure Request where
  url : String
  method : String
  mode : String
  accept : Option String
  deriving DecidableEq, Repr

/-- The argument of `fetch` and of `caches.match`: a `Request` or a URL string. -/
inductive RequestInfo where
  | req (r : Request)
  | url (u : String)
  deriving DecidableEq, Repr

/-- The URL a `RequestInfo` names. -/
def RequestInfo.href : RequestInfo → String
  | .req r => r.url
  | .url u => u

/-- The method of a `RequestInfo`; a URL string stands for a `GET` request. -/
def RequestInfo.verb : RequestInfo → String
  | .req r => r.method
  | .url _ => "GET"

/-- How a promise settles. -/
inductive Outcome (α : Type) where
  | resolved (a : α)
  | rejected (e : JsError)
  deriving DecidableEq, Repr

/-! ## Strings -/

/-- Whether the character list starts with `pat`. -/
def startsWith : List Char → List Char → Bool
  | _, [] => true
  | [], _ :: _ => false
  | c :: cs, p :: ps => c == p && startsWith cs ps

/-- The first index at or after `i` (the position of the head of the list) at
which `pat` occurs, `-1` if there is none. -/
def indexOfFrom (pat : List Char) : List Char → Nat → Int
  | [], i => if startsWith [] pat then (i : Int) else -1
  | c :: cs, i => if startsWith (c :: cs) pat then (i : Int) else indexOfFrom pat cs (i + 1)

/-- The method `String.prototype.indexOf(pat)`. -/
def indexOf (s pat : String) : Int := indexOfFrom pat.data s.data 0

/-- Whether `pat` occurs in the character list. -/
def includesChars (pat : List Char) : List Char → Bool
  | [] => startsWith [] pat
  | c :: cs => startsWith (c :: cs) pat || includesChars pat cs

/-- The method `String.prototype.includes(pat)`. -/
def includes (s pat : String) : Bool := includesChars pat.data s.data

/-! ## Constants of the script -/

def CACHE_NAME : String := "zero"
def CACHE_VERSION : String := "v1.0.2"
def OFFLINE_URL : String := "offline.html"
def FOUR_OH_FOUR_URL : String := "404.html"
def CACHE_REF : String := CACHE_NAME ++ "::" ++ CACHE_VERSION

/-- Service worker will be installed when all these are cached. -/
def CACHE_FILES_PRIORITY : List String :=
  ["/", "app.js", "app.css", "index.html", "offline.html"]

/-- Added to the cache in their own time. -/
def CACHE_FILES_BACKGROUND : List String :=
  ["images/animated.gif"]

/-! ## The platform -/

/-- One cache: the stored responses by URL. -/
abbrev Cache := List (String × Response)

/-- The cache storage `caches`: the namespaces in creation order, each with
its cache. -/
abbrev CacheStorage := List (String × Cache)

/-- What `caches.match(info)` finds: the first namespace, in creation order,
that stores a response under the URL of `info`; a request that is not a `GET`
matches nothing. `none` is `undefined`. -/
def CacheStorage.find (cs : CacheStorage) (info : RequestInfo) : Option Response :=
  if info.verb = "GET" then cs.findSome? (fun ns => ns.2.lookup info.href) else none

/-- The cache of the namespace `name`, empty when there is none. -/
def CacheStorage.cacheOf (cs : CacheStorage) (name : String) : Cache :=
  (cs.lookup name).getD []

/-- The state the script's promises read and change: the cache storage, and
the log of the `fetch` calls made so far, oldest first. -/
structure World where
  caches : CacheStorage
  fetched : List RequestInfo
  deriving DecidableEq, Repr

/-- The browser around the script: how the network answers a `fetch`, and
whether `caches.delete(name)`, `caches.open(name)` and the storing of `url`
in the cache `name` succeed. -/
structure Platform where
  network : RequestInfo → Outcome Response
  deleteOk : String → Bool
  openOk : String → Bool
  putOk : String → String → Bool

/-- A promise: run in a world, it settles and leaves a world. -/
def Promise (α : Type) : Type := World → Outcome α × World

/-- The promise `Promise.resolve(a)`. -/
def Promise.resolve {α : Type} (a : α) : Promise α := fun w => (.resolved a, w)

/-- The promise `Promise.reject(e)`, also what a callback that throws `e` yields. -/
def Promise.reject {α : Type} (e : JsError) : Promise α := fun w => (.rejected e, w)

/-- The method `p.then(f)`: `f` runs on the value `p` resolves to; a rejection
of `p` passes through. -/
def Promise.andThen {α β : Type} (p : Promise α) (f : α → Promise β) : Promise β :=
  fun w =>
    match p w with
    | (.resolved a, w1) => f a w1
    | (.rejected e, w1) => (.rejected e, w1)

/-- The method `p.catch(h)`: `h` runs on the error `p` rejects with; a value
passes through. -/
def Promise.catchWith {α : Type} (p : Promise α) (h : JsError → Promise α) : Promise α :=
  fun w =>
    match p w with
    | (.resolved a, w1) => (.resolved a, w1)
    | (.rejected e, w1) => h e w1

/-- The promise `p` with `g` applied to its value. -/
def Promise.map {α β : Type} (g : α → β) (p : Promise α) : Promise β :=
  p.andThen (fun a => Promise.resolve (g a))

/-- A promise started and not awaited: its effects happen, its settlement is
dropped. -/
def Promise.detached {α : Type} (p : Promise α) : Promise Unit :=
  fun w => (.resolved (), (p w).2)

/-- The function `Promise.all(ps)`: every promise of the list has been started
and runs to its end; the result resolves to the list of values when all
resolve, and rejects with the first rejection of the list otherwise. -/
def Promise.all {α : Type} : List (Promise α) → Promise (List α)
  | [] => Promise.resolve []
  | p :: ps => fun w =>
    match p w with
    | (o, w1) =>
      match Promise.all ps w1 with
      | (os, w2) =>
        (match o, os with
          | .resolved a, .resolved as => .resolved (a :: as)
          | .resolved _, .rejected e => .rejected e
          | .rejected e, _ => .rejected e, w2)

/-- The function `fetch(info)`: the call is logged and settles as the network
answers. -/
def fetch (plat : Platform) (info : RequestInfo) : Promise Response :=
  fun w => (plat.network info, { w with fetched := w.fetched ++ [info] })

/-- The method `caches.match(info)`. -/
def cachesMatch (info : RequestInfo) : Promise (Option Response) :=
  fun w => (.resolved (w.caches.find info), w)

/-- The method `caches.keys()`: the namespace identifiers in creation order. -/
def cachesKeys : Promise (List String) :=
  fun w => (.resolved (w.caches.map Prod.fst), w)

/-- The method `caches.delete(name)`: removes the namespace and resolves to
whether it was there, or rejects and changes nothing. -/
def cachesDelete (plat : Platform) (name : String) : Promise Bool :=
  fun w =>
    if plat.deleteOk name then
      (.resolved (w.caches.any (fun ns => ns.1 == name)),
        { w with caches := w.caches.filter (fun ns => ns.1 != name) })
    else (.rejected .storageError, w)

/-- The method `caches.open(name)`: creates the namespace when it is not
there and resolves to the cache, which the embedding names by `name`. -/
def cachesOpen (plat : Platform) (name : String) : Promise String :=
  fun w =>
    if plat.openOk name then
      (.resolved name,
        { w with caches :=
            if w.caches.any (fun ns => ns.1 == name) then w.caches
            else w.caches ++ [(name, [])] })
    else (.rejected .storageError, w)

/-- Whether a response has an ok status (200 to 299). -/
def Response.ok (r : Response) : Bool := decide (200 ≤ r.status) && decide (r.status ≤ 299)

/-- The responses to `urls`, in order, when every fetch resolves with an ok
status; `none` when one does not. -/
def fetchedAll (plat : Platform) : List String → Option (List (String × Response))
  | [] => some []
  | url :: urls =>
    match plat.network (.url url) with
    | .resolved r =>
      if r.ok then (fetchedAll plat urls).map (fun rest => (url, r) :: rest) else none
    | .rejected _ => none

/-- The cache with `r` stored under `url`, in place of what was there. -/
def Cache.put (c : Cache) (url : String) (r : Response) : Cache :=
  c.filter (fun e => e.1 != url) ++ [(url, r)]

/-- The storage with `entries` stored in the cache of the namespace `name`. -/
def CacheStorage.putAll (cs : CacheStorage) (name : String)
    (entries : List (String × Response)) : CacheStorage :=
  cs.map (fun ns =>
    if ns.1 == name then (ns.1, entries.foldl (fun c e => Cache.put c e.1 e.2) ns.2) else ns)

/-- The method `cache.addAll(urls)` of the cache `name`: every URL is fetched;
when every fetch resolves with an ok status and every response can be stored,
all are stored and the promise resolves; otherwise nothing is stored and it
rejects. -/
def cacheAddAll (plat : Platform) (name : String) (urls : List String) : Promise Unit :=
  fun w =>
    let w1 : World := { w with fetched := w.fetched ++ urls.map RequestInfo.url }
    match fetchedAll plat urls with
    | none => (.rejected .typeError, w1)
    | some entries =>
      if urls.all (plat.putOk name) then
        (.resolved (), { w1 with caches := w1.caches.putAll name entries })
      else (.rejected .storageError, w1)

/-- The expression `response || p` of the script, `response` a `Response` or
`undefined`. -/
def orElse (response : Option Response) (p : Promise (Option Response)) :
    Promise (Option Response) :=
  match response with
  | some r => Promise.resolve (some r)
  | none => p

/-- The method `Array.prototype.indexOf(x)` on an array of strings. -/
def arrayIndexOfFrom (x : String) : List String → Nat → Int
  | [], _ => -1
  | y :: ys, i => if y = x then (i : Int) else arrayIndexOfFrom x ys (i + 1)

/-- The method `xs.indexOf(x)`. -/
def arrayIndexOf (xs : List String) (x : String) : Int := arrayIndexOfFrom x xs 0

/-- The method `Array.prototype.map` from index `i` on: the callback gets the
element and its index. -/
def arrayMapFrom {α β : Type} (f : α → Nat → β) : List α → Nat → List β
  | [], _ => []
  | a :: as, i => f a i :: arrayMapFrom f as (i + 1)

/-- The call `xs.map((x, i) => f x i)`. -/
def arrayMap {α β : Type} (f : α → Nat → β) (xs : List α) : List β := arrayMapFrom f xs 0

/-- The call `xs.map(f)` with a callback that may throw: the first throw ends
the map. -/
def arrayMapThrowing {α β : Type} (f : α → Except JsError β) : List α → Except JsError (List β)
  | [] => .ok []
  | a :: as =>
    match f a with
    | .error e => .error e
    | .ok b =>
      match arrayMapThrowing f as with
      | .error e => .error e
      | .ok bs => .ok (b :: bs)

/-- What an event listener did: it threw before handing anything to the
event, or handed `p` to `event.respondWith` / `event.waitUntil`. -/
inductive Dispatch (α : Type) where
  | raised (e : JsError)
  | handed (p : α)
  deriving DecidableEq, Repr

/-- The listener's promise run in the world `w`. -/
def Dispatch.run {α : Type} : Dispatch (Promise α) → World → Dispatch (Outcome α × World)
  | .raised e, _ => .raised e
  | .handed p, w => .handed (p w)

/-! ## The script -/

/-- The body of the placeholder image. -/
def placeholderSvg : String :=
  "<svg xmlns=\"http://www.w3.org/2000/svg\" xmlns:xlink=\"http://www.w3.org/1999/xlink\"><text style=\"text-anchor: middle; font-family: sans-serif;\" fill-opacity=\"0.25\" x=\"50%\" y=\"50%\">image unavaliable offline</text></svg>"

/-- The response `new Response(svg, {headers: {'Content-Type': 'image/svg+xml'}})`. -/
def placeholderResponse : Response :=
  { status := 200, headers := [("Content-Type", "image/svg+xml")], body := some placeholderSvg }

/-- The response `new Response()`. -/
def emptyResponse : Response :=
  { status := 200, headers := [], body := none }

/-- The function `updateCache` of `sw.js`. -/
def updateCache (plat : Platform) : Promise Unit :=
  (cachesOpen plat CACHE_REF).andThen (fun cache =>
    (Promise.detached (cacheAddAll plat cache CACHE_FILES_BACKGROUND)).andThen (fun _ =>
      cacheAddAll plat cache CACHE_FILES_PRIORITY))

/-- The function `requestFromCache` of `sw.js`; its `console.log(request)` has
no effect on the result and is left out. -/
def requestFromCache (plat : Platform) (request : Request) : Promise (Option Response) :=
  ((cachesMatch (.req request)).andThen (fun response =>
      if request.method ≠ "GET" then
        (fetch plat (.req request)).map some
      else
        match request.accept with
        | none => Promise.reject .typeError
        | some accept =>
          if indexOf accept "text/html" ≠ -1 then
            orElse response (cachesMatch (.url FOUR_OH_FOUR_URL))
          else
            orElse response ((fetch plat (.req request)).map some))).catchWith (fun _ =>
    match request.accept with
    | none => Promise.reject .typeError
    | some accept =>
      if indexOf accept "image" ≠ -1 then Promise.resolve (some placeholderResponse)
      else Promise.resolve (some emptyResponse))

/-- The function `clearCache` of `sw.js`; `keys[i]` is `keys.getD i`, with the
string of `undefined` past the end. -/
def clearCache (plat : Platform) : Promise (List (Option Bool)) :=
  cachesKeys.andThen (fun keys =>
    Promise.all (arrayMap (fun key i =>
      if key ≠ CACHE_REF then (cachesDelete plat (keys.getD i "undefined")).map some
      else Promise.resolve none) keys))

/-- The `install` listener of `sw.js`. -/
def installListener (plat : Platform) : Dispatch (Promise Unit) :=
  .handed (updateCache plat)

/-- The condition of the `fetch` listener:
`mode === 'navigate' || (method === 'GET' && headers.get('accept').includes('text/html'))`.
Reading `.includes` off the `null` of a missing header throws. -/
def wantsPage (request : Request) : Except JsError Bool :=
  if request.mode = "navigate" then .ok true
  else if request.method = "GET" then
    match request.accept with
    | none => .error .typeError
    | some accept => .ok (includes accept "text/html")
  else .ok false

/-- The `fetch` listener of `sw.js`. The script calls `createCacheBustedRequest`
and declares it nowhere: the listener takes it as a parameter, `none` when the
name is unbound. -/
def fetchListener (createCacheBustedRequest : Option (String → Request)) (plat : Platform)
    (request : Request) : Dispatch (Promise (Option Response)) :=
  match wantsPage request with
  | .error e => .raised e
  | .ok true =>
    match createCacheBustedRequest with
    | none => .raised .referenceError
    | some bust =>
      .handed
        (((fetch plat (.req (bust request.url))).andThen (fun response =>
            if response.status = 404 then cachesMatch (.url OFFLINE_URL)
            else
              (cachesMatch (.req request)).andThen (fun response =>
                orElse response ((fetch plat (.req request)).map some)))).catchWith
          (fun _ => cachesMatch (.url OFFLINE_URL)))
  | .ok false =>
    .handed
      ((cachesMatch (.req request)).andThen (fun response =>
        orElse response ((fetch plat (.req request)).map some)))

/-- The `activate` listener of `sw.js`. The script reads `currentCacheNames`
and declares it nowhere: the listener takes it as a parameter, `none` when the
name is unbound. -/
def activateListener (currentCacheNames : Option (List String)) (plat : Platform) :
    Dispatch (Promise (List (Option Bool))) :=
  .handed
    (cachesKeys.andThen (fun cacheNames =>
      match arrayMapThrowing (fun cacheName =>
          match currentCacheNames with
          | none => .error .referenceError
          | some names =>
            if arrayIndexOf names cacheName = -1 then
              .ok ((cachesDelete plat cacheName).map some)
            else .ok (Promise.resolve none)) cacheNames with
      | .error e => Promise.reject e
      | .ok promises => Promise.all promises))

/-! ## Sample inputs -/

/-- A stored offline page. -/
def offlinePage : Response :=
  { status := 200, headers := [("Content-Type", "text/html")], body := some "offline" }

/-- A stored 404 page. -/
def notFoundPage : Response :=
  { status := 200, headers := [("Content-Type", "text/html")], body := some "not found" }

/-- A stored stylesheet. -/
def styleSheet : Response :=
  { status := 200, headers := [("Content-Type", "text/css")], body := some "css" }

/-- A cache storage after an install: the current namespace with the offline
page, the 404 page and a stylesheet. -/
def sampleCaches : CacheStorage :=
  [(CACHE_REF,
    [("offline.html", offlinePage), ("404.html", notFoundPage),
      ("https://example.com/app.css", styleSheet)])]

/-- The world of `sampleCaches` before any fetch. -/
def sampleWorld : World := { caches := sampleCaches, fetched := [] }

/-- A world with an empty cache storage. -/
def emptyWorld : World := { caches := [], fetched := [] }

/-- A world with a stale namespace beside the current one. -/
def staleWorld : World :=
  { caches := [("zero::v1.0.1", [("offline.html", offlinePage)]), (CACHE_REF, [])],
    fetched := [] }

/-- A platform whose network is down; storage works. -/
def offlinePlatform : Platform :=
  { network := fun _ => .rejected .networkError
    deleteOk := fun _ => true
    openOk := fun _ => true
    putOk := fun _ _ => true }

/-- A platform whose server answers every request with status 404. -/
def missingPlatform : Platform :=
  { network := fun _ => .resolved { status := 404, headers := [], body := some "gone" }
    deleteOk := fun _ => true
    openOk := fun _ => true
    putOk := fun _ _ => true }

/-- A platform whose server answers every request with status 200. -/
def onlinePlatform : Platform :=
  { network := fun info => .resolved { status := 200, headers := [], body := some info.href }
    deleteOk := fun _ => true
    openOk := fun _ => true
    putOk := fun _ _ => true }

/-- A platform whose server answers every request but the one for the
background image, which fails. -/
def backgroundDownPlatform : Platform :=
  { network := fun info =>
      if info.href = "images/animated.gif" then .rejected .networkError
      else .resolved { status := 200, headers := [], body := some info.href }
    deleteOk := fun _ => true
    openOk := fun _ => true
    putOk := fun _ _ => true }

/-- A cache-busting helper: the URL with a query parameter appended. -/
def sampleBust (url : String) : Request :=
  { url := url ++ "?cachebust=1", method := "GET", mode := "same-origin", accept := none }

/-- A navigation to a page. -/
def pageRequest : Request :=
  { url := "https://example.com/missing", method := "GET", mode := "navigate",
    accept := some "text/html,application/xhtml+xml" }

/-- A request for an image that is not cached. -/
def imageRequest : Request :=
  { url := "https://example.com/images/x.png", method := "GET", mode := "no-cors",
    accept := some "image/webp,*/*" }

/-- A request for a script that is not cached. -/
def scriptRequest : Request :=
  { url := "https://example.com/app.js", method := "GET", mode := "no-cors",
    accept := some "*/*" }

/-- A request for the cached stylesheet. -/
def styleRequest : Request :=
  { url := "https://example.com/app.css", method := "GET", mode := "no-cors",
    accept := some "text/css,*/*;q=0.1" }

/-- A `GET` request without an `Accept` header. -/
def bareRequest : Request :=
  { url := "https://example.com/data.json", method := "GET", mode := "cors", accept := none }

/-- A `GET` request for a page that also accepts images. -/
def mixedRequest : Request :=
  { url := "https://example.com/gallery", method := "GET", mode := "no-cors",
    accept := some "text/html,image/webp" }

/-! ## Settlement of `cache.addAll` -/

/-- Whether `url` can be fetched for `cache.addAll`: the fetch resolves with an
ok status. -/
def fetchable (plat : Platform) (url : String) : Bool :=
  match plat.network (.url url) with
  | .resolved r => r.ok
  | .rejected _ => false

/-- How `cache.addAll(urls)` settles on the cache `name`. -/
def addAllOutcome (plat : Platform) (name : String) (urls : List String) : Outcome Unit :=
  if urls.all (fetchable plat) then
    if urls.all (plat.putOk name) then .resolved () else .rejected .storageError
  else .rejected .typeError

/-! ## The `fetch` listener -/

/-- With a helper bound to `createCacheBustedRequest`: a navigational request
whose cache-busted fetch resolves with status 404 is answered with what
`caches.match(OFFLINE_URL)` finds, for every helper, platform and world. -/
theorem fetchListener_page_404 (bust : String → Request) (plat : Platform)
    (request : Request) (w : World) (r : Response)
    (hpage : wantsPage request = .ok true)
    (hnet : plat.network (.req (bust request.url)) = .resolved r)
    (hstatus : r.status = 404) :
    (fetchListener (some bust) plat request).run w
      = .handed (.resolved (w.caches.find (.url OFFLINE_URL)),
          { w with fetched := w.fetched ++ [.req (bust request.url)] }) := by
  simp [fetchListener, hpage, Dispatch.run, Promise.andThen, Promise.catchWith, fetch, hnet,
    hstatus, cachesMatch]

/-- With a helper bound to `createCacheBustedRequest`: the promise the
navigational branch hands to `respondWith` resolves, to a response or to
`undefined`, whatever the network and the cache do. -/
theorem fetchListener_page_resolves (bust : String → Request) (plat : Platform)
    (request : Request) (w : World)
    (hpage : wantsPage request = .ok true) :
    ∃ v w1, (fetchListener (some bust) plat request).run w = .handed (.resolved v, w1) := by
  cases hnet : plat.network (.req (bust request.url)) with
  | rejected e =>
    simp [fetchListener, hpage, Dispatch.run, Promise.andThen, Promise.catchWith, fetch,
      cachesMatch, hnet]
  | resolved r =>
    by_cases hstatus : r.status = 404
    · simp [fetchListener, hpage, Dispatch.run, Promise.andThen, Promise.catchWith, fetch,
        cachesMatch, hnet, hstatus]
    · cases hfind : w.caches.find (.req request) with
      | some cached =>
        simp [fetchListener, hpage, Dispatch.run, Promise.andThen, Promise.catchWith, fetch,
          cachesMatch, orElse, Promise.resolve, hnet, hstatus, hfind]
      | none =>
        cases hnet2 : plat.network (.req request) with
        | rejected e =>
          simp [fetchListener, hpage, Dispatch.run, Promise.andThen, Promise.catchWith, fetch,
            cachesMatch, orElse, Promise.map, Promise.resolve, hnet, hstatus, hfind, hnet2]
        | resolved r2 =>
          simp [fetchListener, hpage, Dispatch.run, Promise.andThen, Promise.catchWith, fetch,
            cachesMatch, orElse, Promise.map, Promise.resolve, hnet, hstatus, hfind, hnet2]

/-- A request of the other branch that is not cached settles as its fetch
does: a rejection of the fetch is the rejection of the promise handed to
`respondWith`. -/
theorem fetchListener_other_miss_rejects (cbr : Option (String → Request)) (plat : Platform)
    (request : Request) (w : World) (e : JsError)
    (hother : wantsPage request = .ok false)
    (hmiss : w.caches.find (.req request) = none)
    (hdown : plat.network (.req request) = .rejected e) :
    (fetchListener cbr plat request).run w
      = .handed (.rejected e, { w with fetched := w.fetched ++ [.req request] }) := by
  simp [fetchListener, hother, Dispatch.run, Promise.andThen, cachesMatch, hmiss, orElse,
    Promise.map, fetch, hdown]

/-- C1, at the failing input: a navigation whose cache-busted fetch resolves
with status 404, the cache holding distinct entries for `offline.html` and
`404.html`. The listener hands `respondWith` the entry of `OFFLINE_URL`, which
is not the entry of `FOUR_OH_FOUR_URL`. -/
theorem fetchListener_404_serves_offline_entry :
    (missingPlatform.network (.req (sampleBust pageRequest.url))
        = .resolved { status := 404, headers := [], body := some "gone" })
    ∧ (fetchListener (some sampleBust) missingPlatform pageRequest).run sampleWorld
        = .handed (.resolved (sampleWorld.caches.find (.url OFFLINE_URL)),
            { sampleWorld with fetched := [.req (sampleBust pageRequest.url)] })
    ∧ sampleWorld.caches.find (.url OFFLINE_URL) = some offlinePage
    ∧ sampleWorld.caches.find (.url FOUR_OH_FOUR_URL) = some notFoundPage
    ∧ offlinePage ≠ notFoundPage := by
  decide

/-- With a helper bound to `createCacheBustedRequest`: for every request whose
mode is `navigate`, if the fetch of the cache-busted request rejects, the
promise handed to `respondWith` resolves to what `caches.match(OFFLINE_URL)`
finds, and that fetch is the only one made. -/
theorem fetchListener_navigate_network_down (bust : String → Request) (plat : Platform)
    (request : Request) (w : World) (e : JsError)
    (hmode : request.mode = "navigate")
    (hdown : plat.network (.req (bust request.url)) = .rejected e) :
    (fetchListener (some bust) plat request).run w
      = .handed (.resolved (w.caches.find (.url OFFLINE_URL)),
          { w with fetched := w.fetched ++ [.req (bust request.url)] }) := by
  simp [fetchListener, wantsPage, hmode, Dispatch.run, Promise.andThen, Promise.catchWith,
    fetch, hdown, cachesMatch]

/-- With `createCacheBustedRequest` unbound, as in the script: for every
navigational request the listener throws a `ReferenceError` and hands nothing
to `respondWith`, on every platform and in every world. -/
theorem fetchListener_page_unbound_helper (plat : Platform) (request : Request) (w : World)
    (hpage : wantsPage request = .ok true) :
    (fetchListener none plat request).run w = .raised .referenceError := by
  simp [fetchListener, hpage, Dispatch.run]

/-- C2, at the failing input: a navigation (mode `navigate`) while the network
is down for every request, the cache holding the offline page, and
`createCacheBustedRequest` unbound as in the script. The listener throws a
`ReferenceError` before it hands anything to `respondWith`: no fetch is made
and the offline page is not served. With a helper bound, the same input is
answered with the entry of `OFFLINE_URL`, as the comments of the branch say. -/
theorem fetchListener_navigate_unbound_helper_raises :
    pageRequest.mode = "navigate"
    ∧ (∀ info, offlinePlatform.network info = .rejected .networkError)
    ∧ sampleWorld.caches.find (.url OFFLINE_URL) = some offlinePage
    ∧ (fetchListener none offlinePlatform pageRequest).run sampleWorld
        = .raised .referenceError
    ∧ (fetchListener (some sampleBust) offlinePlatform pageRequest).run sampleWorld
        = .handed (.resolved (some offlinePage),
            { sampleWorld with fetched := [.req (sampleBust pageRequest.url)] }) :=
  ⟨rfl, fun _ => rfl, by decide, by decide, by decide⟩

/-- C3: for every `GET` request whose mode is not `navigate` and whose `Accept`
header is present and does not contain `text/html`, if `caches.match` finds an
entry for the request, the promise handed to `respondWith` resolves to that
entry and the world is left as it was: no fetch is logged, on any platform. -/
theorem fetchListener_other_cached (cbr : Option (String → Request)) (plat : Platform)
    (request : Request) (w : World) (accept : String) (cached : Response)
    (hmode : request.mode ≠ "navigate")
    (hget : request.method = "GET")
    (hacc : request.accept = some accept)
    (hhtml : includes accept "text/html" = false)
    (hit : w.caches.find (.req request) = some cached) :
    (fetchListener cbr plat request).run w = .handed (.resolved (some cached), w) := by
  simp [fetchListener, wantsPage, hmode, hget, hacc, hhtml, Dispatch.run, Promise.andThen,
    cachesMatch, hit, orElse, Promise.resolve]

/-- C3 at a concrete input: a cached stylesheet is served from the cache while
the network is down, and nothing is fetched. -/
theorem fetchListener_other_cached_witness :
    (fetchListener (some sampleBust) offlinePlatform styleRequest).run sampleWorld
      = .handed (.resolved (some styleSheet), sampleWorld) :=
  fetchListener_other_cached (some sampleBust) offlinePlatform styleRequest sampleWorld
    "text/css,*/*;q=0.1" styleSheet (by decide) (by decide) (by decide) (by decide) (by decide)

/-- C4, at the failing input: a request for `/images/x.png` with
`Accept: image/webp,*/*`, not cached, the network down. The listener's promise
rejects with the network error; `requestFromCache`, which the listener does not
call, resolves to the placeholder at the same input. -/
theorem fetchListener_image_offline_rejects :
    wantsPage imageRequest = .ok false
    ∧ includes "image/webp,*/*" "image" = true
    ∧ sampleWorld.caches.find (.req imageRequest) = none
    ∧ (fetchListener (some sampleBust) offlinePlatform imageRequest).run sampleWorld
        = .handed (.rejected .networkError,
            { sampleWorld with fetched := [.req imageRequest] })
    ∧ (requestFromCache offlinePlatform imageRequest sampleWorld).1
        = .resolved (some placeholderResponse) :=
  ⟨rfl, by decide, by decide, by decide, rfl⟩

/-- C5, at the failing input: a request for a script with `Accept: */*`, not
cached, the network down. The promise handed to `respondWith` rejects. -/
theorem fetchListener_script_offline_rejects :
    scriptRequest.accept = some "*/*"
    ∧ emptyWorld.caches.find (.req scriptRequest) = none
    ∧ (fetchListener (some sampleBust) offlinePlatform scriptRequest).run emptyWorld
        = .handed (.rejected .networkError,
            { emptyWorld with fetched := [.req scriptRequest] }) := by
  decide

/-- C6, at the failing input: a `GET` request whose mode is `cors` and that has
no `Accept` header. The listener throws a `TypeError` while it classifies the
request and hands nothing to `respondWith`, whatever the helper, the platform
and the world. -/
theorem fetchListener_no_accept_raises (cbr : Option (String → Request)) (plat : Platform)
    (w : World) :
    bareRequest.accept = none
    ∧ (fetchListener cbr plat bareRequest).run w = .raised .typeError := by
  constructor
  · rfl
  · simp [fetchListener, wantsPage, bareRequest, Dispatch.run]

/-! ## `requestFromCache` -/

/-- An index is never `-1`: `indexOfFrom` is `-1` exactly when the pattern
does not occur. -/
theorem indexOfFrom_ne_neg_one (pat s : List Char) (i : Nat) :
    indexOfFrom pat s i ≠ -1 ↔ includesChars pat s = true := by
  induction s generalizing i with
  | nil =>
    unfold indexOfFrom includesChars
    by_cases h : startsWith [] pat = true
    · simp only [h, if_true, iff_true]; omega
    · simp [h]
  | cons c cs ih =>
    unfold indexOfFrom includesChars
    by_cases h : startsWith (c :: cs) pat = true
    · simp only [h, if_true, Bool.true_or, iff_true]; omega
    · simp only [h, Bool.false_eq_true, if_false, Bool.false_or]
      exact ih (i + 1)

/-- The test `s.indexOf(pat) !== -1` is the test `s.includes(pat)`. -/
theorem indexOf_ne_neg_one (s pat : String) :
    indexOf s pat ≠ -1 ↔ includes s pat = true :=
  indexOfFrom_ne_neg_one pat.data s.data 0

/-- C10 as stated fails: a `GET` request whose `Accept` header contains both
`text/html` and `image`, not cached, the network down for every request.
`requestFromCache` resolves to the cached 404 page, not to the placeholder. -/
theorem requestFromCache_page_accepting_images :
    includes "text/html,image/webp" "image" = true
    ∧ mixedRequest.accept = some "text/html,image/webp"
    ∧ sampleWorld.caches.find (.req mixedRequest) = none
    ∧ (∀ info, offlinePlatform.network info = .rejected .networkError)
    ∧ (requestFromCache offlinePlatform mixedRequest sampleWorld).1
        = .resolved (some notFoundPage)
    ∧ (requestFromCache offlinePlatform mixedRequest sampleWorld).1
        ≠ .resolved (some placeholderResponse) :=
  ⟨by decide, rfl, by decide, fun _ => rfl, by decide, by
    have h : (requestFromCache offlinePlatform mixedRequest sampleWorld).1
        = .resolved (some notFoundPage) := by decide
    rw [h]
    simp [notFoundPage, placeholderResponse]⟩

/-- C10, amended: for every request with an `Accept` header that is not a
`GET` request accepting `text/html`, if `caches.match` finds no entry for the
request and the fetch of the request rejects, `requestFromCache` resolves: to
the placeholder response, whose only header is `Content-Type: image/svg+xml`,
when the `Accept` header contains `image`, and to the empty response when it
does not. -/
theorem requestFromCache_degraded (plat : Platform) (request : Request) (w : World)
    (accept : String) (e : JsError)
    (hacc : request.accept = some accept)
    (hpage : ¬ (request.method = "GET" ∧ includes accept "text/html" = true))
    (hmiss : w.caches.find (.req request) = none)
    (hdown : plat.network (.req request) = .rejected e) :
    (includes accept "image" = true →
        (requestFromCache plat request w).1 = .resolved (some placeholderResponse)
        ∧ placeholderResponse.headers = [("Content-Type", "image/svg+xml")])
    ∧ (includes accept "image" = false →
        (requestFromCache plat request w).1 = .resolved (some emptyResponse)) := by
  have hfetch : ((cachesMatch (.req request)).andThen (fun response =>
      if request.method ≠ "GET" then
        (fetch plat (.req request)).map some
      else
        match request.accept with
        | none => Promise.reject .typeError
        | some accept =>
          if indexOf accept "text/html" ≠ -1 then
            orElse response (cachesMatch (.url FOUR_OH_FOUR_URL))
          else
            orElse response ((fetch plat (.req request)).map some))) w
      = (.rejected e, { w with fetched := w.fetched ++ [.req request] }) := by
    by_cases hget : request.method = "GET"
    · have hhtml : ¬ (indexOf accept "text/html" ≠ -1) := by
        rw [indexOf_ne_neg_one]
        exact fun h => hpage ⟨hget, h⟩
      simp only [Promise.andThen, cachesMatch, hmiss, hget, hacc, hhtml, orElse, Promise.map,
        fetch, hdown, ne_eq, not_true_eq_false, if_false]
    · simp only [Promise.andThen, cachesMatch, hget, Promise.map, fetch, hdown, ne_eq,
        not_false_eq_true, if_true]
  constructor
  · intro himg
    have h : indexOf accept "image" ≠ -1 := (indexOf_ne_neg_one accept "image").mpr himg
    refine ⟨?_, rfl⟩
    unfold requestFromCache Promise.catchWith
    rw [hfetch]
    simp only [hacc, h, if_true, Promise.resolve, ne_eq, not_false_eq_true]
  · intro himg
    have h : ¬ (indexOf accept "image" ≠ -1) := by
      rw [indexOf_ne_neg_one, himg]
      simp
    unfold requestFromCache Promise.catchWith
    rw [hfetch]
    simp only [hacc, h, if_false, Promise.resolve]

/-- C10, amended, at concrete inputs: an image request gets the placeholder
and a script request gets the empty response when cache and network fail. -/
theorem requestFromCache_degraded_witness :
    (requestFromCache offlinePlatform imageRequest sampleWorld).1
        = .resolved (some placeholderResponse)
    ∧ (requestFromCache offlinePlatform scriptRequest sampleWorld).1
        = .resolved (some emptyResponse) :=
  ⟨((requestFromCache_degraded offlinePlatform imageRequest sampleWorld "image/webp,*/*"
        .networkError rfl (by decide) (by decide) rfl).1 (by decide)).1,
    (requestFromCache_degraded offlinePlatform scriptRequest sampleWorld "*/*"
        .networkError rfl (by decide) (by decide) rfl).2 (by decide)⟩

/-! ## `clearCache` and the `activate` listener -/

/-- A callback that reads the array at its own index is a plain `map`. -/
theorem arrayMapFrom_eq_map {α β : Type} (f : α → Nat → β) (g : α → β) (suf pre : List α)
    (h : ∀ i a, (pre ++ suf)[i]? = some a → f a i = g a) :
    arrayMapFrom f suf pre.length = suf.map g := by
  induction suf generalizing pre with
  | nil => rfl
  | cons a as ih =>
    unfold arrayMapFrom
    have h0 : f a pre.length = g a := by
      apply h
      rw [List.getElem?_append_right (Nat.le_refl _)]
      simp
    have hrest : arrayMapFrom f as (pre ++ [a]).length = as.map g := by
      apply ih
      intro i b hb
      apply h
      simpa using hb
    have hlen : (pre ++ [a]).length = pre.length + 1 := by simp
    rw [hlen] at hrest
    rw [h0, hrest, List.map_cons]

/-- The promises `clearCache` hands to `Promise.all`: `keys[i]` is the key the
callback got. -/
theorem clearCache_callbacks (plat : Platform) (keys : List String) :
    arrayMap (fun key i =>
        if key ≠ CACHE_REF then (cachesDelete plat (keys.getD i "undefined")).map some
        else (Promise.resolve none : Promise (Option Bool))) keys
      = keys.map (fun key =>
        if key ≠ CACHE_REF then (cachesDelete plat key).map some else Promise.resolve none) := by
  have h := arrayMapFrom_eq_map
    (fun key i =>
        if key ≠ CACHE_REF then (cachesDelete plat (keys.getD i "undefined")).map some
        else (Promise.resolve none : Promise (Option Bool)))
    (fun key =>
        if key ≠ CACHE_REF then (cachesDelete plat key).map some else Promise.resolve none)
    keys []
  apply h
  intro i a ha
  have hget : keys.getD i "undefined" = a := by
    rw [List.getD_eq_getElem?_getD]
    simp only [List.nil_append] at ha
    rw [ha]
    rfl
  simp only [hget]

/-- The step of `Promise.all` when the head and the rest resolve. -/
theorem all_cons_resolved {α : Type} (p : Promise α) (ps : List (Promise α)) (w w1 w2 : World)
    (a : α) (as : List α) (hp : p w = (.resolved a, w1))
    (hps : Promise.all ps w1 = (.resolved as, w2)) :
    Promise.all (p :: ps) w = (.resolved (a :: as), w2) := by
  unfold Promise.all
  simp only [hp, hps]

/-- Deleting, in any order, every namespace of `names` that is not the current
one: when each of these deletions succeeds, `Promise.all` resolves and the
storage keeps the namespaces that are current or not among `names`. -/
theorem all_deletes (plat : Platform) (names : List String) (w : World)
    (hok : ∀ name ∈ names, name ≠ CACHE_REF → plat.deleteOk name = true) :
    ∃ vs, Promise.all (names.map (fun key =>
        if key ≠ CACHE_REF then (cachesDelete plat key).map some
        else (Promise.resolve none : Promise (Option Bool)))) w
      = (.resolved vs,
          { w with
            caches := w.caches.filter (fun ns => decide (ns.1 = CACHE_REF ∨ ns.1 ∉ names)) }) := by
  induction names generalizing w with
  | nil =>
    refine ⟨[], ?_⟩
    simp [Promise.all, Promise.resolve]
  | cons k ks ih =>
    have hks : ∀ name ∈ ks, name ≠ CACHE_REF → plat.deleteOk name = true :=
      fun name hn => hok name (List.mem_cons_of_mem _ hn)
    by_cases hk : k = CACHE_REF
    · obtain ⟨vs, hvs⟩ := ih w hks
      refine ⟨none :: vs, ?_⟩
      rw [List.map_cons]
      have hhead : (if k ≠ CACHE_REF then (cachesDelete plat k).map some
          else (Promise.resolve none : Promise (Option Bool))) w = (.resolved none, w) := by
        simp [hk, Promise.resolve]
      rw [all_cons_resolved _ _ w w _ none vs hhead hvs]
      simp only [Prod.mk.injEq, true_and]
      congr 1
      apply List.filter_congr
      intro ns _
      by_cases hns : ns.1 = CACHE_REF <;> simp [hns, hk]
    · have hdel : plat.deleteOk k = true := hok k (List.mem_cons_self _ _) hk
      obtain ⟨vs, hvs⟩ :=
        ih { w with caches := w.caches.filter (fun ns => ns.1 != k) } hks
      refine ⟨some (w.caches.any (fun ns => ns.1 == k)) :: vs, ?_⟩
      rw [List.map_cons]
      have hhead : (if k ≠ CACHE_REF then (cachesDelete plat k).map some
          else (Promise.resolve none : Promise (Option Bool))) w
          = (.resolved (some (w.caches.any (fun ns => ns.1 == k))),
              { w with caches := w.caches.filter (fun ns => ns.1 != k) }) := by
        simp [hk, Promise.map, Promise.andThen, cachesDelete, hdel, Promise.resolve]
      rw [all_cons_resolved _ _ w _ _ _ vs hhead hvs]
      simp only [Prod.mk.injEq, true_and]
      congr 1
      rw [List.filter_filter]
      apply List.filter_congr
      intro ns _
      by_cases hns : ns.1 = CACHE_REF
      · have : ¬ (CACHE_REF = k) := fun h => hk h.symm
        simp [hns, this]
      · by_cases hnk : ns.1 = k <;> simp [hns, hnk, hk]

/-- What `clearCache` does when every deletion it starts succeeds: it resolves,
and the storage keeps exactly the namespaces named `CACHE_REF`. -/
theorem clearCache_run (plat : Platform) (w : World)
    (hok : ∀ name ∈ w.caches.map Prod.fst, name ≠ CACHE_REF → plat.deleteOk name = true) :
    ∃ vs, clearCache plat w
      = (.resolved vs, { w with caches := w.caches.filter (fun ns => ns.1 == CACHE_REF) }) := by
  obtain ⟨vs, hvs⟩ := all_deletes plat (w.caches.map Prod.fst) w hok
  refine ⟨vs, ?_⟩
  simp only [clearCache, Promise.andThen, cachesKeys, clearCache_callbacks]
  rw [hvs]
  simp only [Prod.mk.injEq, true_and]
  congr 1
  apply List.filter_congr
  intro ns hns
  have hmem : ns.1 ∈ w.caches.map Prod.fst := List.mem_map_of_mem _ hns
  by_cases h : ns.1 = CACHE_REF <;> simp [h, hmem]

/-- C8 as stated fails: on the empty cache storage, every deletion succeeding,
`clearCache` resolves and `caches.keys()` then resolves to the empty list, in
which `CACHE_REF` is not. -/
theorem clearCache_empty_storage :
    (∀ name, offlinePlatform.deleteOk name = true)
    ∧ (cachesKeys emptyWorld).1 = .resolved []
    ∧ (((clearCache offlinePlatform).andThen (fun _ => cachesKeys)) emptyWorld).1
        = .resolved []
    ∧ CACHE_REF ∉ ([] : List String) :=
  ⟨fun _ => rfl, rfl, rfl, List.not_mem_nil _⟩

/-- C8, amended: for every prior cache storage, if every deletion `clearCache`
starts succeeds, `clearCache` resolves, the storage keeps exactly its
namespaces named `CACHE_REF`, with their caches, and `caches.keys()` then
resolves to a list whose members are `CACHE_REF` if it was a namespace before
and nothing otherwise. -/
theorem clearCache_keeps_only_current (plat : Platform) (w : World)
    (hok : ∀ name ∈ w.caches.map Prod.fst, name ≠ CACHE_REF → plat.deleteOk name = true) :
    (∃ vs, (clearCache plat w).1 = .resolved vs)
    ∧ (clearCache plat w).2
        = { w with caches := w.caches.filter (fun ns => ns.1 == CACHE_REF) }
    ∧ ∃ keys, (((clearCache plat).andThen (fun _ => cachesKeys)) w).1 = .resolved keys
        ∧ ∀ name, name ∈ keys ↔ (name = CACHE_REF ∧ name ∈ w.caches.map Prod.fst) := by
  obtain ⟨vs, hvs⟩ := clearCache_run plat w hok
  refine ⟨⟨vs, by rw [hvs]⟩, by rw [hvs], ?_⟩
  refine ⟨(w.caches.filter (fun ns => ns.1 == CACHE_REF)).map Prod.fst, ?_, ?_⟩
  · simp only [Promise.andThen, hvs, cachesKeys]
  · intro name
    simp only [List.mem_map, List.mem_filter, beq_iff_eq]
    constructor
    · rintro ⟨ns, ⟨hmem, href⟩, rfl⟩
      exact ⟨href, ns, hmem, rfl⟩
    · rintro ⟨href, ns, hmem, rfl⟩
      exact ⟨ns, ⟨hmem, href⟩, rfl⟩

/-- C8, amended, at a concrete input: a stale namespace beside the current one
is deleted and `caches.keys()` then resolves to the current one alone. -/
theorem clearCache_keeps_only_current_witness :
    (clearCache offlinePlatform staleWorld).2 = { caches := [(CACHE_REF, [])], fetched := [] }
    ∧ ∃ keys, (((clearCache offlinePlatform).andThen (fun _ => cachesKeys)) staleWorld).1
          = .resolved keys
        ∧ ∀ name, name ∈ keys ↔ (name = CACHE_REF ∧ name ∈ staleWorld.caches.map Prod.fst) :=
  ⟨(clearCache_keeps_only_current offlinePlatform staleWorld (fun _ _ _ => rfl)).2.1.trans
      (by decide),
    (clearCache_keeps_only_current offlinePlatform staleWorld (fun _ _ _ => rfl)).2.2⟩

/-- C7, at the failing input: a stale namespace `zero::v1.0.1` beside the
current one, every deletion succeeding, and `currentCacheNames` unbound as in
the script. The promise handed to `waitUntil` rejects with a `ReferenceError`
and the stale namespace is still there; `clearCache`, which the listener does
not call, deletes it at the same input. -/
theorem activateListener_unbound_name_rejects :
    (∀ name, offlinePlatform.deleteOk name = true)
    ∧ (activateListener none offlinePlatform).run staleWorld
        = .handed (.rejected .referenceError, staleWorld)
    ∧ (cachesKeys staleWorld).1 = .resolved ["zero::v1.0.1", CACHE_REF]
    ∧ (clearCache offlinePlatform staleWorld).2.caches.map Prod.fst = [CACHE_REF] :=
  ⟨fun _ => rfl, by decide, by decide, by decide⟩

/-! ## `updateCache` -/

/-- The fetches of `cache.addAll` all succeed exactly when every URL is fetchable. -/
theorem fetchedAll_isSome (plat : Platform) (urls : List String) :
    (fetchedAll plat urls).isSome = urls.all (fetchable plat) := by
  induction urls with
  | nil => rfl
  | cons url urls ih =>
    unfold fetchedAll
    rw [List.all_cons, ← ih]
    unfold fetchable
    cases hnet : plat.network (.url url) with
    | rejected e => simp
    | resolved r =>
      by_cases hr : r.ok = true
      · simp [hr]
      · simp [hr]

/-- The entries `cache.addAll` fetched: one per URL, in order, each the response
the network gave. -/
theorem fetchedAll_entries (plat : Platform) (urls : List String)
    (entries : List (String × Response)) (h : fetchedAll plat urls = some entries) :
    entries.map Prod.fst = urls
    ∧ ∀ e ∈ entries, plat.network (.url e.1) = .resolved e.2 := by
  induction urls generalizing entries with
  | nil =>
    simp only [fetchedAll, Option.some.injEq] at h
    subst h
    simp
  | cons url urls ih =>
    unfold fetchedAll at h
    cases hnet : plat.network (.url url) with
    | rejected e => simp [hnet] at h
    | resolved r =>
      simp only [hnet] at h
      by_cases hr : r.ok = true
      · simp only [hr, if_true] at h
        cases hrest : fetchedAll plat urls with
        | none => simp [hrest] at h
        | some rest =>
          simp only [hrest, Option.map_some', Option.some.injEq] at h
          subst h
          obtain ⟨h1, h2⟩ := ih rest hrest
          refine ⟨by simp [h1], ?_⟩
          intro e he
          rcases List.mem_cons.mp he with rfl | he
          · exact hnet
          · exact h2 e he
      · simp [hr] at h

/-- The settlement of `cache.addAll` does not depend on the world. -/
theorem cacheAddAll_outcome (plat : Platform) (name : String) (urls : List String) (w : World) :
    (cacheAddAll plat name urls w).1 = addAllOutcome plat name urls := by
  unfold cacheAddAll addAllOutcome
  rw [← fetchedAll_isSome]
  cases h : fetchedAll plat urls with
  | none => simp
  | some entries =>
    by_cases hput : urls.all (plat.putOk name) = true
    · simp [hput]
    · simp [hput]

/-- The method `cache.addAll` logs one fetch per URL. -/
theorem cacheAddAll_fetched (plat : Platform) (name : String) (urls : List String) (w : World) :
    (cacheAddAll plat name urls w).2.fetched = w.fetched ++ urls.map RequestInfo.url := by
  unfold cacheAddAll
  cases h : fetchedAll plat urls with
  | none => simp
  | some entries =>
    by_cases hput : urls.all (plat.putOk name) = true
    · simp [hput]
    · simp [hput]

/-- When `cache.addAll(urls)` resolves, the fetched responses are the ones it
stored. -/
theorem cacheAddAll_stored (plat : Platform) (name : String) (urls : List String) (w : World)
    (h : (cacheAddAll plat name urls w).1 = .resolved ()) :
    ∃ entries, fetchedAll plat urls = some entries
      ∧ (cacheAddAll plat name urls w).2.caches = w.caches.putAll name entries := by
  unfold cacheAddAll at h ⊢
  cases hf : fetchedAll plat urls with
  | none => simp [hf] at h
  | some entries =>
    by_cases hput : urls.all (plat.putOk name) = true
    · exact ⟨entries, rfl, by simp [hput]⟩
    · simp [hf, hput] at h

/-- The step of `List.lookup`, as a conditional. -/
theorem lookup_cons_if {β : Type} (k u : String) (v : β) (c : List (String × β)) :
    List.lookup k ((u, v) :: c) = if k = u then some v else List.lookup k c := by
  rw [List.lookup_cons]
  by_cases h : k = u
  · subst h
    simp
  · have hb : (k == u) = false := by simpa using h
    simp [hb, h]

/-- Storing in a cache keeps the namespaces and rewrites the cache of `name`. -/
theorem lookup_putAll (cs : CacheStorage) (name : String) (entries : List (String × Response)) :
    (cs.putAll name entries).lookup name
      = (cs.lookup name).map (fun c => entries.foldl (fun c e => Cache.put c e.1 e.2) c) := by
  induction cs with
  | nil => rfl
  | cons ns cs ih =>
    obtain ⟨n, c⟩ := ns
    unfold CacheStorage.putAll at ih ⊢
    by_cases hn : n = name
    · subst hn
      simp [lookup_cons_if]
    · have hn2 : ¬ (name = n) := fun h => hn h.symm
      simp only [List.map_cons, hn, beq_iff_eq, if_false, lookup_cons_if, hn2]
      simpa only [beq_iff_eq] using ih

/-- Looking up a cache after a `put`. -/
theorem lookup_put (c : Cache) (url : String) (r : Response) (k : String) :
    (Cache.put c url r).lookup k = if k = url then some r else c.lookup k := by
  unfold Cache.put
  rw [List.lookup_append]
  induction c with
  | nil =>
    by_cases hk : k = url
    · simp [hk, lookup_cons_if]
    · simp [hk, lookup_cons_if]
  | cons e c ih =>
    obtain ⟨u, v⟩ := e
    by_cases hu : u = url
    · subst hu
      by_cases hk : k = u
      · subst hk
        simpa [lookup_cons_if] using ih
      · simpa [lookup_cons_if, hk] using ih
    · have hfilter : List.filter (fun e => e.1 != url) ((u, v) :: c)
          = (u, v) :: List.filter (fun e => e.1 != url) c := by
        simp [List.filter_cons, hu]
      rw [hfilter]
      by_cases hk : k = u
      · subst hk
        simp [lookup_cons_if, hu]
      · simpa [lookup_cons_if, hk] using ih

/-- Storing entries leaves the other URLs of the cache as they were. -/
theorem lookup_foldl_put_of_not_mem (entries : List (String × Response)) (c : Cache) (k : String)
    (hk : k ∉ entries.map Prod.fst) :
    (entries.foldl (fun c e => Cache.put c e.1 e.2) c).lookup k = c.lookup k := by
  induction entries generalizing c with
  | nil => rfl
  | cons e es ih =>
    simp only [List.map_cons, List.mem_cons, not_or] at hk
    rw [List.foldl_cons, ih _ hk.2, lookup_put]
    simp [hk.1]

/-- Storing entries with distinct URLs: each URL then holds its response. -/
theorem lookup_foldl_put (entries : List (String × Response)) (c : Cache) (k : String)
    (r : Response) (hnodup : (entries.map Prod.fst).Nodup) (hmem : (k, r) ∈ entries) :
    (entries.foldl (fun c e => Cache.put c e.1 e.2) c).lookup k = some r := by
  induction entries generalizing c with
  | nil => simp at hmem
  | cons e es ih =>
    simp only [List.map_cons, List.nodup_cons] at hnodup
    rw [List.foldl_cons]
    rcases List.mem_cons.mp hmem with rfl | hmem
    · rw [lookup_foldl_put_of_not_mem _ _ _ hnodup.1, lookup_put]
      simp
    · exact ih _ hnodup.2 hmem

/-- A namespace can be looked up exactly when the storage has it. -/
theorem lookup_isSome (cs : CacheStorage) (name : String) :
    (cs.lookup name).isSome = cs.any (fun ns => ns.1 == name) := by
  induction cs with
  | nil => rfl
  | cons ns cs ih =>
    obtain ⟨n, c⟩ := ns
    rw [lookup_cons_if, List.any_cons]
    by_cases hn : name = n
    · subst hn
      simp
    · have hn2 : ¬ (n = name) := fun h => hn h.symm
      simp [hn, hn2, ih]

/-- After `caches.open(name)` has resolved, the namespace is there. -/
theorem cachesOpen_namespace (plat : Platform) (name : String) (w : World)
    (hopen : plat.openOk name = true) :
    ((cachesOpen plat name w).2.caches.lookup name).isSome = true := by
  rw [lookup_isSome]
  unfold cachesOpen
  by_cases hany : w.caches.any (fun ns => ns.1 == name) = true
  · simp only [hopen, if_true, hany]
  · simp [hopen, hany]

/-- The method `cache.addAll` keeps the namespaces. -/
theorem cacheAddAll_namespace (plat : Platform) (name : String) (urls : List String) (w : World) :
    ((cacheAddAll plat name urls w).2.caches.lookup name).isSome
      = (w.caches.lookup name).isSome := by
  unfold cacheAddAll
  cases hf : fetchedAll plat urls with
  | none => simp
  | some entries =>
    by_cases hput : urls.all (plat.putOk name) = true
    · simp only [hput, if_true]
      rw [lookup_putAll]
      simp
    · simp [hput]

/-- The promise of `updateCache` when the current namespace opens: the
background manifest is added and dropped, then the priority manifest. -/
theorem updateCache_opened (plat : Platform) (w : World)
    (hopen : plat.openOk CACHE_REF = true) :
    updateCache plat w
      = cacheAddAll plat CACHE_REF CACHE_FILES_PRIORITY
          (cacheAddAll plat CACHE_REF CACHE_FILES_BACKGROUND
            (cachesOpen plat CACHE_REF w).2).2 := by
  simp [updateCache, Promise.andThen, Promise.detached, cachesOpen, hopen]

/-- How the promise of `updateCache` settles. -/
theorem updateCache_outcome (plat : Platform) (w : World) :
    (updateCache plat w).1
      = if plat.openOk CACHE_REF then addAllOutcome plat CACHE_REF CACHE_FILES_PRIORITY
        else .rejected .storageError := by
  by_cases hopen : plat.openOk CACHE_REF = true
  · rw [updateCache_opened plat w hopen, cacheAddAll_outcome]
    simp [hopen]
  · simp [updateCache, Promise.andThen, cachesOpen, hopen]

/-- The method `cache.addAll` resolves exactly when every URL is fetchable and
storable. -/
theorem addAllOutcome_resolved (plat : Platform) (name : String) (urls : List String) :
    addAllOutcome plat name urls = .resolved ()
      ↔ ∀ url ∈ urls, fetchable plat url = true ∧ plat.putOk name url = true := by
  unfold addAllOutcome
  by_cases hf : urls.all (fetchable plat) = true
  · by_cases hp : urls.all (plat.putOk name) = true
    · simp only [hf, hp, if_true, true_iff]
      intro url hurl
      exact ⟨List.all_eq_true.mp hf url hurl, List.all_eq_true.mp hp url hurl⟩
    · simp only [hf, hp, if_true, Bool.false_eq_true, if_false]
      constructor
      · intro h
        cases h
      · intro h
        exact absurd (List.all_eq_true.mpr (fun url hurl => (h url hurl).2)) hp
  · simp only [hf, Bool.false_eq_true, if_false]
    constructor
    · intro h
      cases h
    · intro h
      exact absurd (List.all_eq_true.mpr (fun url hurl => (h url hurl).1)) hf

/-- The settlement of `cache.addAll` reads the platform at its URLs only. -/
theorem addAllOutcome_congr (plat plat2 : Platform) (name : String) (urls : List String)
    (h : ∀ url ∈ urls, plat2.network (.url url) = plat.network (.url url)
      ∧ plat2.putOk name url = plat.putOk name url) :
    addAllOutcome plat2 name urls = addAllOutcome plat name urls := by
  have hf : urls.all (fetchable plat2) = urls.all (fetchable plat) := by
    rw [Bool.eq_iff_iff, List.all_eq_true, List.all_eq_true]
    constructor
    · intro h2 url hurl
      have := h2 url hurl
      unfold fetchable at this ⊢
      rwa [(h url hurl).1] at this
    · intro h2 url hurl
      have := h2 url hurl
      unfold fetchable at this ⊢
      rwa [(h url hurl).1]
  have hp : urls.all (plat2.putOk name) = urls.all (plat.putOk name) := by
    rw [Bool.eq_iff_iff, List.all_eq_true, List.all_eq_true]
    constructor
    · intro h2 url hurl
      rw [← (h url hurl).2]
      exact h2 url hurl
    · intro h2 url hurl
      rw [(h url hurl).2]
      exact h2 url hurl
  unfold addAllOutcome
  rw [hf, hp]

/-- C9: the promise of `updateCache` resolves exactly when the namespace
`CACHE_REF` opens and every file of `CACHE_FILES_PRIORITY` is fetched with an ok
status and stored; it rejects when a priority file fails to fetch or to store;
when it resolves, every priority file has been fetched and the cache of
`CACHE_REF` holds the fetched response under its URL; and it settles the same
way on any platform and world that agree on opening `CACHE_REF` and on the
priority files, whatever happens to `CACHE_FILES_BACKGROUND`. -/
theorem updateCache_settles (plat : Platform) (w : World) :
    ((updateCache plat w).1 = .resolved () ↔
        plat.openOk CACHE_REF = true
        ∧ ∀ url ∈ CACHE_FILES_PRIORITY,
            fetchable plat url = true ∧ plat.putOk CACHE_REF url = true)
    ∧ ((∃ url ∈ CACHE_FILES_PRIORITY,
          fetchable plat url = false ∨ plat.putOk CACHE_REF url = false) →
        ∃ e, (updateCache plat w).1 = .rejected e)
    ∧ ((updateCache plat w).1 = .resolved () →
        ∀ url ∈ CACHE_FILES_PRIORITY,
          RequestInfo.url url ∈ (updateCache plat w).2.fetched
          ∧ ∃ r, plat.network (.url url) = .resolved r ∧ r.ok = true
              ∧ ((updateCache plat w).2.caches.cacheOf CACHE_REF).lookup url = some r)
    ∧ (∀ (plat2 : Platform) (w2 : World),
        plat2.openOk CACHE_REF = plat.openOk CACHE_REF →
        (∀ url ∈ CACHE_FILES_PRIORITY,
          plat2.network (.url url) = plat.network (.url url)
          ∧ plat2.putOk CACHE_REF url = plat.putOk CACHE_REF url) →
        (updateCache plat2 w2).1 = (updateCache plat w).1) := by
  have hiff : (updateCache plat w).1 = .resolved () ↔
      plat.openOk CACHE_REF = true
      ∧ ∀ url ∈ CACHE_FILES_PRIORITY,
          fetchable plat url = true ∧ plat.putOk CACHE_REF url = true := by
    rw [updateCache_outcome]
    by_cases hopen : plat.openOk CACHE_REF = true
    · simp only [hopen, if_true, true_and]
      exact addAllOutcome_resolved plat CACHE_REF CACHE_FILES_PRIORITY
    · simp only [hopen, Bool.false_eq_true, if_false, false_and]
      constructor
      · intro h
        cases h
      · intro h
        exact h.elim
  refine ⟨hiff, ?_, ?_, ?_⟩
  · rintro ⟨url, hurl, hfail⟩
    cases hout : (updateCache plat w).1 with
    | rejected e => exact ⟨e, rfl⟩
    | resolved u =>
      exfalso
      have h := (hiff.mp hout).2 url hurl
      rcases hfail with hfail | hfail
      · rw [h.1] at hfail
        cases hfail
      · rw [h.2] at hfail
        cases hfail
  · intro hres url hurl
    have hall := hiff.mp hres
    have hopen := hall.1
    rw [updateCache_opened plat w hopen] at hres ⊢
    obtain ⟨entries, hf, hcaches⟩ := cacheAddAll_stored plat CACHE_REF CACHE_FILES_PRIORITY _ hres
    obtain ⟨hkeys, hnet⟩ := fetchedAll_entries plat CACHE_FILES_PRIORITY entries hf
    have hmem : url ∈ entries.map Prod.fst := by
      rw [hkeys]
      exact hurl
    obtain ⟨e, he, rfl⟩ := List.mem_map.mp hmem
    refine ⟨?_, e.2, hnet e he, ?_, ?_⟩
    · rw [cacheAddAll_fetched]
      exact List.mem_append_right _ (List.mem_map_of_mem _ hurl)
    · have hfetchable := (hall.2 e.1 hurl).1
      unfold fetchable at hfetchable
      rw [hnet e he] at hfetchable
      exact hfetchable
    · unfold CacheStorage.cacheOf
      rw [hcaches, lookup_putAll]
      have hns : ((cacheAddAll plat CACHE_REF CACHE_FILES_BACKGROUND
          (cachesOpen plat CACHE_REF w).2).2.caches.lookup CACHE_REF).isSome = true := by
        rw [cacheAddAll_namespace]
        exact cachesOpen_namespace plat CACHE_REF w hopen
      obtain ⟨c0, hc0⟩ := Option.isSome_iff_exists.mp hns
      rw [hc0]
      simp only [Option.map_some', Option.getD_some]
      exact lookup_foldl_put entries c0 e.1 e.2 (by rw [hkeys]; decide) he
  · intro plat2 w2 hopen2 hagree
    rw [updateCache_outcome, updateCache_outcome, hopen2,
      addAllOutcome_congr plat plat2 CACHE_REF CACHE_FILES_PRIORITY hagree]

/-- C9 at concrete inputs: with the server up the promise resolves; with the
network down it rejects; with only the background image failing it resolves. -/
theorem updateCache_settles_witness :
    (updateCache onlinePlatform emptyWorld).1 = .resolved ()
    ∧ (∃ e, (updateCache offlinePlatform emptyWorld).1 = .rejected e)
    ∧ fetchable backgroundDownPlatform "images/animated.gif" = false
    ∧ (updateCache backgroundDownPlatform emptyWorld).1 = .resolved () :=
  ⟨(updateCache_settles onlinePlatform emptyWorld).1.mpr ⟨rfl, by decide⟩,
    (updateCache_settles offlinePlatform emptyWorld).2.1 ⟨"/", by decide, Or.inl (by decide)⟩,
    by decide,
    ((updateCache_settles onlinePlatform emptyWorld).2.2.2 backgroundDownPlatform emptyWorld
        rfl (by decide)).trans
      ((updateCache_settles onlinePlatform emptyWorld).1.mpr ⟨rfl, by decide⟩)⟩

end ServiceWorker
